import Mathlib

/-!
Verification of the clock-domain and memory-bus composition core of the
litex-boards `c10lprefkit` target (src/litex_boards/targets/c10lprefkit.py)
and its smoke-test harness (src/test/test_targets.py).

The target script parameterizes an external SoC framework.  Following the
specification, the Address-Space Composer (`register`, `decode`, `layout`)
and the Clock Domain Graph (`define_domain`, `derive`) are modelled from the
spec, while the concrete constants (memory map bases and sizes, PLL ratios,
the CRG reset wiring, the frequency assertion, the build-test counter) are
embedded directly from the source files.
-/

namespace LitexBoards

/-- Kind of a memory region: RAM-like memory or peripheral I/O registers
(the source passes `type="io"` for the ethmac region, default otherwise). -/
inductive RegionKind where
  | memory
  | io
deriving DecidableEq

/-- Modelled from the spec: a `MemoryRegion` record of the Address-Space
Composer (spec section 3); the composer itself lives in the external SoC
framework, only its call sites (`add_memory_region`) appear under src/. -/
structure MemoryRegion where
  name : String
  base : Nat
  size : Nat
  kind : RegionKind
deriving DecidableEq

/-- Errors of the Address-Space Composer (spec section 7).  `OverlapError`
carries the names of both conflicting regions. -/
inductive ComposerError where
  | OverlapError (existing incoming : String)
  | DuplicateName (n : String)
deriving DecidableEq

/-- Modelled from the spec: the overlap predicate of spec section 4.2,
two regions conflict iff `b1 < b2+s2 AND b2 < b1+s1`. -/
def conflict (r1 r2 : MemoryRegion) : Bool :=
  decide (r1.base < r2.base + r2.size) && decide (r2.base < r1.base + r1.size)

/-- Modelled from the spec: `register(name, base, size, kind)` of the
Address-Space Composer (spec section 4.2).  The registry is the list of
regions in registration order; a reused name fails with `DuplicateName`
and a conflicting range fails with `OverlapError` naming both regions. -/
def register (st : List MemoryRegion) (name : String) (base size : Nat)
    (kind : RegionKind) : Except ComposerError (List MemoryRegion) :=
  if st.any (fun r => r.name == name) then
    Except.error (ComposerError.DuplicateName name)
  else
    match st.find? (fun r => conflict r ⟨name, base, size, kind⟩) with
    | some r => Except.error (ComposerError.OverlapError r.name name)
    | none => Except.ok (st ++ [⟨name, base, size, kind⟩])

/-- Result of an address decode: the owning region, or the `NotMapped`
sentinel (a normal query result, not a fatal error — spec section 7). -/
inductive DecodeResult where
  | Mapped (r : MemoryRegion)
  | NotMapped
deriving DecidableEq

/-- Whether the half-open range `[base, base+size)` of a region contains an
address. -/
def containsAddr (r : MemoryRegion) (addr : Nat) : Bool :=
  decide (r.base ≤ addr) && decide (addr < r.base + r.size)

/-- Modelled from the spec: `decode(address)` of the Address-Space Composer
(spec section 4.2) — the owning region of an address, or `NotMapped`. -/
def decode (st : List MemoryRegion) (addr : Nat) : DecodeResult :=
  match st.find? (fun r => containsAddr r addr) with
  | some r => DecodeResult.Mapped r
  | none => DecodeResult.NotMapped

/-- Ordering of regions by base address, the sort key of `layout()`. -/
abbrev regionLe (a b : MemoryRegion) : Prop := a.base ≤ b.base

instance : DecidableRel regionLe := fun a b => Nat.decLe a.base b.base

instance : IsTotal MemoryRegion regionLe := ⟨fun a b => Nat.le_total a.base b.base⟩

instance : IsTrans MemoryRegion regionLe := ⟨fun _ _ _ h1 h2 => Nat.le_trans h1 h2⟩

/-- Strict ordering of regions by base address, used to show that a sorted
registry with pairwise-distinct bases is unique. -/
abbrev regionLt (a b : MemoryRegion) : Prop := a.base < b.base

instance : IsAntisymm MemoryRegion regionLt :=
  ⟨fun _ _ h1 h2 => absurd (Nat.lt_trans h1 h2) (Nat.lt_irrefl _)⟩

/-- Modelled from the spec: `layout()` of the Address-Space Composer (spec
section 4.2) — the registered regions as `(name, base, size, kind)` tuples
sorted by base address. -/
def layout (st : List MemoryRegion) : List (String × Nat × Nat × RegionKind) :=
  (st.insertionSort regionLe).map (fun r => (r.name, r.base, r.size, r.kind))

/-- The half-open intervals `[b1, b1+s1)` and `[b2, b2+s2)` have a common
point (set-theoretic intersection, as the claims phrase overlap). -/
def intervalsIntersect (b1 s1 b2 s2 : Nat) : Prop :=
  ∃ a : Nat, (b1 ≤ a ∧ a < b1 + s1) ∧ (b2 ≤ a ∧ a < b2 + s2)

/-- A registry is valid when no two of its regions conflict — the invariant
`register` maintains (spec section 3, MemoryRegion invariant). -/
def validState (st : List MemoryRegion) : Prop :=
  st.Pairwise (fun a b => conflict a b = false)

instance : ∀ st : List MemoryRegion, Decidable (validState st) := fun st => by
  unfold validState
  infer_instance

/-- Errors of the Clock Domain Graph (spec section 7). -/
inductive ClockError where
  | DuplicateDomain
  | InvalidResetSource
  | InvalidRatio
deriving DecidableEq

/-- Reset policy of a clock domain (spec section 3). -/
inductive ResetPolicy where
  | reset_less
  | synchronous
  | asynchronous
deriving DecidableEq

/-- Modelled from the spec: a clock-domain record of the Clock Domain Graph
(spec section 3); the graph lives in the external framework, only the
`ClockDomain(...)` declarations appear under src/. -/
structure ClockDomainDef where
  name : String
  policy : ResetPolicy
  resetSource : Option String
deriving DecidableEq

/-- Modelled from the spec: `define_domain(name, reset_policy, reset_source?)`
(spec section 4.1).  A reused name fails with `DuplicateDomain`; a
non-reset-less policy whose reset source is unset or not yet defined fails
with `InvalidResetSource`. -/
def define_domain (st : List ClockDomainDef) (name : String)
    (policy : ResetPolicy) (resetSource : Option String) :
    Except ClockError (List ClockDomainDef) :=
  if st.any (fun d => d.name == name) then
    Except.error ClockError.DuplicateDomain
  else if policy = ResetPolicy.reset_less then
    Except.ok (st ++ [⟨name, policy, resetSource⟩])
  else
    match resetSource with
    | none => Except.error ClockError.InvalidResetSource
    | some src =>
      if st.any (fun d => d.name == src) then
        Except.ok (st ++ [⟨name, policy, resetSource⟩])
      else
        Except.error ClockError.InvalidResetSource

/-- Modelled from the spec: `derive(domain, reference, multiply, divide,
phase_shift_degrees)` (spec section 4.1) — `frequency = reference *
multiply / divide`, exact over the rationals, `InvalidRatio` on a zero
divisor.  The domain name and phase shift do not enter the frequency. -/
def derive (domain : String) (reference : ℚ) (multiply divide : ℤ)
    (phase_shift_degrees : ℚ) : Except ClockError ℚ :=
  if divide = 0 then
    Except.error ClockError.InvalidRatio
  else
    Except.ok (reference * (multiply : ℚ) / (divide : ℚ))

/-- Clock-graph states reachable from the empty graph through successful
`define_domain` calls. -/
inductive DomainReachable : List ClockDomainDef → Prop where
  | empty : DomainReachable []
  | step {st st' : List ClockDomainDef} {n : String} {p : ResetPolicy}
      {s : Option String} : DomainReachable st →
      define_domain st n p s = Except.ok st' → DomainReachable st'

/-- Well-formed chain of domain definitions: walking the list with the set
of already-defined names, each domain's name is fresh and, unless it is
reset-less, its reset source is a previously defined name.  This is the
acyclicity invariant of spec section 4.1: reset sources form a strict
forward-reference order, so no reset cycle exists. -/
def wfChain : List ClockDomainDef → List String → Prop
  | [], _ => True
  | d :: rest, seen =>
      d.name ∉ seen ∧
      (d.policy ≠ ResetPolicy.reset_less →
        ∃ s, d.resetSource = some s ∧ s ∈ seen) ∧
      wfChain rest (seen ++ [d.name])

/-- Clock domains declared by `_CRG.__init__` (c10lprefkit.py lines 29-31). -/
inductive CRGDomain where
  | sys
  | sys_ps
  | por
deriving DecidableEq

/-- Reset-less flags of the CRG domains: `cd_por` is declared with
`reset_less=True`, `cd_sys` and `cd_sys_ps` are not (lines 29-31). -/
def crgResetLess : CRGDomain → Bool
  | CRGDomain.por => true
  | CRGDomain.sys => false
  | CRGDomain.sys_ps => false

/-- State of the CRG: the single `rst_n` register clocked in the `por`
domain (c10lprefkit.py lines 42-43). -/
structure CRGState where
  rst_n : Bool
deriving DecidableEq

/-- One `por`-domain clock edge: `self.sync.por += rst_n.eq(cpu_reset)`
(line 43) — the register samples the `cpu_reset` input. -/
def crgStep (s : CRGState) (cpu_reset : Bool) : CRGState :=
  ⟨cpu_reset⟩

/-- Combinational reset of the `sys` domain:
`self.cd_sys.rst.eq(~rst_n)` (line 46). -/
def sys_rst (s : CRGState) : Bool := !s.rst_n

/-- Combinational reset of the `sys_ps` domain:
`self.cd_sys_ps.rst.eq(~rst_n)` (line 47). -/
def sys_ps_rst (s : CRGState) : Bool := !s.rst_n

/-- Trace of the CRG register under a `cpu_reset` input stream, from an
arbitrary power-up value of `rst_n`. -/
def crgTrace (init : Bool) (cpu_reset : Nat → Bool) : Nat → CRGState
  | 0 => ⟨init⟩
  | t + 1 => crgStep (crgTrace init cpu_reset t) (cpu_reset t)

/-- ALTPLL parameter `CLK0_DIVIDE_BY` (c10lprefkit.py line 55). -/
def clk0_divide_by : ℤ := 6

/-- ALTPLL parameter `CLK0_MULTIPLY_BY` (c10lprefkit.py line 57). -/
def clk0_multiply_by : ℤ := 25

/-- Frequency of the `clk12` reference oscillator in Hz (12 MHz input,
`INCLK0_INPUT_FREQUENCY = 83000` ≈ 83 ns period, line 64). -/
def clk12_freq : ℚ := 12000000

/-- `BaseSoC.mem_map["hyperram"]` (c10lprefkit.py line 87). -/
def hyperram_base : Nat := 0x20000000

/-- Size of the hyperram region, `8*1024*1024` (c10lprefkit.py line 105). -/
def hyperram_size : Nat := 8 * 1024 * 1024

/-- `EthernetSoC.mem_map["ethmac"]` (c10lprefkit.py line 119). -/
def ethmac_base : Nat := 0xb0000000

/-- Size of the ethmac region, `0x2000` (c10lprefkit.py line 139). -/
def ethmac_size : Nat := 0x2000

/-- The hyperram region registered by `BaseSoC.__init__` (line 105). -/
def hyperramRegion : MemoryRegion :=
  ⟨"hyperram", hyperram_base, hyperram_size, RegionKind.memory⟩

/-- The ethmac region registered by `EthernetSoC.__init__` (line 139,
`type="io"`). -/
def ethmacRegion : MemoryRegion :=
  ⟨"ethmac", ethmac_base, ethmac_size, RegionKind.io⟩

/-- The core region of the spec's end-to-end scenario (spec section 8):
`core = [0, 0x1000)`. -/
def coreRegion : MemoryRegion :=
  ⟨"core", 0x0, 0x1000, RegionKind.memory⟩

/-- Modelled from the spec: the base configuration of the end-to-end
scenario (spec section 8) — register `core` then `hyperram`. -/
def baseConfig : Except ComposerError (List MemoryRegion) :=
  Except.bind (register [] "core" 0x0 0x1000 RegionKind.memory)
    (fun st => register st "hyperram" 0x20000000 0x800000 RegionKind.memory)

/-- Modelled from the spec: the extended configuration of the end-to-end
scenario (spec section 8) — the base configuration plus `ethmac`. -/
def extendedConfig : Except ComposerError (List MemoryRegion) :=
  Except.bind baseConfig
    (fun st => register st "ethmac" 0xb0000000 0x2000 RegionKind.io)

/-- Embedding of `BaseSoC.__init__` (c10lprefkit.py lines 92-105): the
constructor first asserts `sys_clk_freq == int(50e6)` and only then
configures clock domains and memory regions; the error branch therefore
carries no configured state, the success branch carries the hyperram
region registered at line 105. -/
def baseSoC_init (sys_clk_freq : Nat) : Except String (List MemoryRegion) :=
  if sys_clk_freq = 50000000 then
    Except.ok [hyperramRegion]
  else
    Except.error "assert sys_clk_freq == int(50e6)"

/-- Embedding of `build_test` (src/test/test_targets.py lines 17-25): each
SoC's build is abstracted by whether `./build/gateware/top.v` exists after
it; `errors` accumulates `not os.path.isfile(...)` over the list. -/
def build_test (socs : List Bool) : Nat :=
  socs.foldl (fun errors produced => errors + (if produced then 0 else 1)) 0

/-- The `por` domain as a clock-graph record: declared reset-less
(c10lprefkit.py line 31), so it needs no reset source. -/
def porDef : ClockDomainDef := ⟨"por", ResetPolicy.reset_less, none⟩

/-- The `sys` domain as a clock-graph record: synchronously reset from the
`por`-clocked register (c10lprefkit.py lines 29, 43, 46). -/
def sysDef : ClockDomainDef := ⟨"sys", ResetPolicy.synchronous, some "por"⟩

/-! Helper lemmas shared by the claim theorems. -/

/-- The overlap predicate unfolded to its arithmetic form. -/
theorem conflict_eq_true_iff {r1 r2 : MemoryRegion} :
    conflict r1 r2 = true ↔
      (r1.base < r2.base + r2.size ∧ r2.base < r1.base + r1.size) := by
  simp [conflict]

/-- The overlap predicate is symmetric. -/
theorem conflict_comm (r1 r2 : MemoryRegion) : conflict r1 r2 = conflict r2 r1 := by
  simp [conflict, Bool.and_comm]

/-- For regions of positive size, the spec's overlap predicate coincides
with set-theoretic intersection of the half-open intervals. -/
theorem conflict_iff_intersect {r1 r2 : MemoryRegion}
    (h1 : 0 < r1.size) (h2 : 0 < r2.size) :
    conflict r1 r2 = true ↔
      intervalsIntersect r1.base r1.size r2.base r2.size := by
  rw [conflict_eq_true_iff]
  constructor
  · rintro ⟨hc1, hc2⟩
    exact ⟨max r1.base r2.base, ⟨by omega, by omega⟩, by omega, by omega⟩
  · rintro ⟨a, ⟨ha1, ha2⟩, ha3, ha4⟩
    omega

/-- Two regions that both contain an address conflict. -/
theorem conflict_of_contains {r1 r2 : MemoryRegion} {a : Nat}
    (h1 : containsAddr r1 a = true) (h2 : containsAddr r2 a = true) :
    conflict r1 r2 = true := by
  simp [containsAddr] at h1 h2
  rw [conflict_eq_true_iff]
  omega

/-- Registering against a single existing region of a different name fails
with `OverlapError` naming both regions exactly when they conflict. -/
theorem register_single {r : MemoryRegion} {n : String} {b s : Nat}
    {k : RegionKind} (hn : r.name ≠ n) :
    register [r] n b s k =
      (if conflict r ⟨n, b, s, k⟩ then
        Except.error (ComposerError.OverlapError r.name n)
      else
        Except.ok [r, ⟨n, b, s, k⟩]) := by
  have hb : (r.name == n) = false := beq_eq_false_iff_ne.mpr hn
  by_cases hc : conflict r ⟨n, b, s, k⟩ = true
  · simp [register, hb, hc, List.find?]
  · rw [Bool.not_eq_true] at hc
    simp [register, hb, hc, List.find?]

/-- A region of positive size contains its own base address. -/
theorem containsAddr_base {r : MemoryRegion} (h : 0 < r.size) :
    containsAddr r r.base = true := by
  simp [containsAddr]
  omega

/-- No region contains the address one past its end. -/
theorem containsAddr_end (r : MemoryRegion) :
    containsAddr r (r.base + r.size) = false := by
  simp [containsAddr]

/-- `decode` on a registry whose head contains the address answers the
head. -/
theorem decode_cons_pos {x : MemoryRegion} {rest : List MemoryRegion}
    {a : Nat} (h : containsAddr x a = true) :
    decode (x :: rest) a = DecodeResult.Mapped x := by
  unfold decode
  rw [@List.find?_cons_of_pos _ (fun r => containsAddr r a) x rest h]

/-- `decode` skips a head region that does not contain the address. -/
theorem decode_cons_neg {x : MemoryRegion} {rest : List MemoryRegion}
    {a : Nat} (h : containsAddr x a = false) :
    decode (x :: rest) a = decode rest a := by
  unfold decode
  rw [@List.find?_cons_of_neg _ (fun r => containsAddr r a) x rest (by simp [h])]

/-- In a valid registry, `decode` maps an address to any member region that
contains it (the member is unique, since two containing regions would
conflict). -/
theorem decode_mem_unique {st : List MemoryRegion} (hv : validState st)
    {r : MemoryRegion} {a : Nat} (hr : r ∈ st)
    (hc : containsAddr r a = true) :
    decode st a = DecodeResult.Mapped r := by
  induction st with
  | nil => cases hr
  | cons x rest ih =>
    rw [validState, List.pairwise_cons] at hv
    rcases hv with ⟨hx, hrest⟩
    rcases List.mem_cons.mp hr with h | h
    · subst h
      exact decode_cons_pos hc
    · by_cases hxa : containsAddr x a = true
      · exact absurd (conflict_of_contains hxa hc) (by simp [hx r h])
      · rw [Bool.not_eq_true] at hxa
        rw [decode_cons_neg hxa]
        exact ih hrest h

/-- `decode` answers `NotMapped` exactly on addresses no region contains. -/
theorem decode_eq_notMapped {st : List MemoryRegion} {a : Nat}
    (h : ∀ r ∈ st, containsAddr r a = false) :
    decode st a = DecodeResult.NotMapped := by
  have : st.find? (fun r => containsAddr r a) = none :=
    List.find?_eq_none.mpr (fun x hx => by simp [h x hx])
  simp [decode, this]

/-! Claim theorems. -/

/-- Claim C1 (amended): for every pair of regions with distinct names,
`register` fails with `OverlapError` exactly when the spec's conflict
predicate `b1 < b2+s2 AND b2 < b1+s1` holds — which, for regions of
positive size, is exactly intersection of the half-open intervals
`[base, base+size)`; the check is symmetric in the two regions, the error
names both of them, and registering `A = [0x20000000, 0x20800000)` then
`B = [0x20400000, 0x20480000)` fails with `OverlapError` naming A and B. -/
theorem register_overlap_iff_conflict :
    (∀ r1 r2 : MemoryRegion, 0 < r1.size → 0 < r2.size →
      (conflict r1 r2 = true ↔
        intervalsIntersect r1.base r1.size r2.base r2.size)) ∧
    (∀ r1 r2 : MemoryRegion, conflict r1 r2 = conflict r2 r1) ∧
    (∀ (r : MemoryRegion) (n : String) (b s : Nat) (k : RegionKind),
      r.name ≠ n →
      (conflict r ⟨n, b, s, k⟩ = true →
        register [r] n b s k =
          Except.error (ComposerError.OverlapError r.name n)) ∧
      (conflict r ⟨n, b, s, k⟩ = false →
        register [r] n b s k = Except.ok [r, ⟨n, b, s, k⟩])) ∧
    (∀ r1 r2 : MemoryRegion, r1.name ≠ r2.name →
      (register [r1] r2.name r2.base r2.size r2.kind).isOk =
        (register [r2] r1.name r1.base r1.size r1.kind).isOk) ∧
    register [⟨"A", 0x20000000, 0x800000, RegionKind.memory⟩]
        "B" 0x20400000 0x80000 RegionKind.memory =
      Except.error (ComposerError.OverlapError "A" "B") := by
  refine ⟨fun r1 r2 h1 h2 => conflict_iff_intersect h1 h2,
          conflict_comm, ?_, ?_, rfl⟩
  · intro r n b s k hn
    constructor
    · intro hc
      rw [register_single hn, if_pos hc]
    · intro hc
      rw [register_single hn, if_neg (by simp [hc])]
  · intro r1 r2 hn
    rw [register_single hn, register_single (Ne.symm hn)]
    rw [conflict_comm r2 r1]
    by_cases hc : conflict r1 r2 = true
    · rw [if_pos hc, if_pos hc]
      rfl
    · rw [Bool.not_eq_true] at hc
      rw [if_neg (by simp [hc]), if_neg (by simp [hc])]
      rfl

/-- Witness for C1: the concrete A/B scenario, instantiating the amended
theorem at the two source regions. -/
theorem register_overlap_iff_conflict_witness :
    intervalsIntersect 0x20000000 0x800000 0x20400000 0x80000 ∧
    register [⟨"A", 0x20000000, 0x800000, RegionKind.memory⟩]
        "B" 0x20400000 0x80000 RegionKind.memory =
      Except.error (ComposerError.OverlapError "A" "B") :=
  ⟨(register_overlap_iff_conflict.1
      ⟨"A", 0x20000000, 0x800000, RegionKind.memory⟩
      ⟨"B", 0x20400000, 0x80000, RegionKind.memory⟩
      (by decide) (by decide)).mp (by decide),
   register_overlap_iff_conflict.2.2.2.2⟩

/-- Counterexample for C1 as stated: with a zero-size region the conflict
predicate of the spec fires although the half-open intervals do not
intersect — registering `B = [5, 5)` against `A = [0, 10)` fails with
`OverlapError` even though `[5, 5)` is empty. -/
theorem register_overlap_zero_size_cex :
    register [⟨"A", 0, 10, RegionKind.memory⟩] "B" 5 0 RegionKind.memory =
      Except.error (ComposerError.OverlapError "A" "B") ∧
    ¬ intervalsIntersect 0 10 5 0 := by
  constructor
  · rfl
  · rintro ⟨a, hleft, h1, h2⟩
    omega

/-- Claim C2: `derive` is exact and deterministic — for every reference
frequency and integers (multiply, divide) with divide nonzero it returns
exactly `reference * multiply / divide`; with the source's ALTPLL ratios
(multiply 25, divide 6 on the 12 MHz reference) it returns 50 MHz. -/
theorem derive_exact :
    (∀ (dom : String) (reference : ℚ) (multiply divide : ℤ) (ps : ℚ),
      divide ≠ 0 →
      derive dom reference multiply divide ps =
        Except.ok (reference * (multiply : ℚ) / (divide : ℚ))) ∧
    derive "sys" clk12_freq clk0_multiply_by clk0_divide_by 0 =
      Except.ok 50000000 := by
  constructor
  · intro dom reference multiply divide ps h
    simp [derive, h]
  · rw [derive, clk0_divide_by, clk0_multiply_by, clk12_freq]
    norm_num

/-- Witness for C2: the spec's example `derive(12_000_000, 25, 6) ==
50_000_000`, instantiating the theorem at those values. -/
theorem derive_exact_witness :
    ((6 : ℤ) ≠ 0) ∧
    derive "sys" 12000000 25 6 0 =
      Except.ok ((12000000 : ℚ) * ((25 : ℤ) : ℚ) / ((6 : ℤ) : ℚ)) :=
  ⟨by norm_num, derive_exact.1 "sys" 12000000 25 6 0 (by norm_num)⟩

/-- Claim C3 (amended): over a valid registry, `decode` returns the unique
region whose half-open range contains the queried address and `NotMapped`
when no region contains it; for every registered region of positive size
`decode(base)` returns that region, and `decode(base+size)` returns
`NotMapped` unless `base+size` lies inside another registered region. -/
theorem decode_boundary_correct :
    (∀ st : List MemoryRegion, validState st →
      ∀ r ∈ st, 0 < r.size → decode st r.base = DecodeResult.Mapped r) ∧
    (∀ st : List MemoryRegion, validState st →
      ∀ r ∈ st, ∀ a : Nat, containsAddr r a = true →
        decode st a = DecodeResult.Mapped r) ∧
    (∀ (st : List MemoryRegion) (a : Nat),
      (∀ r ∈ st, containsAddr r a = false) →
        decode st a = DecodeResult.NotMapped) ∧
    (∀ st : List MemoryRegion, ∀ r ∈ st,
      (∀ x ∈ st, containsAddr x (r.base + r.size) = false) →
        decode st (r.base + r.size) = DecodeResult.NotMapped) := by
  refine ⟨?_, ?_, ?_, ?_⟩
  · intro st hv r hr hs
    exact decode_mem_unique hv hr (containsAddr_base hs)
  · intro st hv r hr a hc
    exact decode_mem_unique hv hr hc
  · intro st a h
    exact decode_eq_notMapped h
  · intro st r hr h
    exact decode_eq_notMapped h

/-- Witness for C3: on the registry holding the core and hyperram regions,
`decode` at the hyperram base returns the hyperram region and `decode` one
past its end (0x20800000) returns `NotMapped`. -/
theorem decode_boundary_correct_witness :
    decode [coreRegion, hyperramRegion] 0x20000000 =
      DecodeResult.Mapped hyperramRegion ∧
    decode [coreRegion, hyperramRegion] 0x20800000 =
      DecodeResult.NotMapped :=
  ⟨by
    have h := decode_boundary_correct.1 [coreRegion, hyperramRegion]
      (by decide) hyperramRegion (by decide) (by decide)
    simpa [hyperramRegion, hyperram_base] using h,
   decode_boundary_correct.2.2.1 [coreRegion, hyperramRegion] 0x20800000
    (by decide)⟩

/-- Counterexample for C3 as stated: a zero-size region registers
successfully, yet `decode` at its base answers `NotMapped`, not the
region — the boundary statement `decode(base) = region` needs the region's
size to be positive. -/
theorem decode_zero_size_base_cex :
    register [] "Z" 5 0 RegionKind.memory =
      Except.ok [⟨"Z", 5, 0, RegionKind.memory⟩] ∧
    decode [⟨"Z", 5, 0, RegionKind.memory⟩] 5 = DecodeResult.NotMapped ∧
    DecodeResult.NotMapped ≠
      DecodeResult.Mapped ⟨"Z", 5, 0, RegionKind.memory⟩ :=
  ⟨rfl, rfl, by decide⟩

/-- Claim C9: the concretely registered regions of the extended (Ethernet)
configuration are disjoint — hyperram `[0x20000000, 0x20800000)` and
ethmac `[0xB0000000, 0xB0002000)` do not conflict in either order, their
intervals do not intersect, and registering ethmac after hyperram
succeeds rather than raising an overlap error. -/
theorem ethmac_hyperram_disjoint :
    conflict hyperramRegion ethmacRegion = false ∧
    conflict ethmacRegion hyperramRegion = false ∧
    register [hyperramRegion] "ethmac" ethmac_base ethmac_size
        RegionKind.io =
      Except.ok [hyperramRegion, ethmacRegion] ∧
    ¬ intervalsIntersect hyperram_base hyperram_size ethmac_base
        ethmac_size := by
  refine ⟨rfl, rfl, rfl, ?_⟩
  rintro ⟨a, ⟨h1, h2⟩, h3, h4⟩
  rw [hyperram_base, hyperram_size] at h2
  rw [ethmac_base] at h3
  omega

/-- Claim C10: in the CRG embedding, the `por` domain is reset-less while
`sys` and `sys_ps` are not; the `sys` and `sys_ps` resets are the same
function of the single `por`-clocked register `rst_n`, equal at every
cycle of every trace, and one cycle after the register samples the
`cpu_reset` input the shared reset equals its negation — so `sys` and
`sys_ps` enter and leave reset simultaneously. -/
theorem crg_sys_sysps_same_reset :
    crgResetLess CRGDomain.por = true ∧
    crgResetLess CRGDomain.sys = false ∧
    crgResetLess CRGDomain.sys_ps = false ∧
    (∀ s : CRGState, sys_rst s = sys_ps_rst s) ∧
    (∀ (s : CRGState) (c : Bool), (crgStep s c).rst_n = c) ∧
    (∀ (init : Bool) (f : Nat → Bool) (t : Nat),
      sys_rst (crgTrace init f t) = sys_ps_rst (crgTrace init f t)) ∧
    (∀ (init : Bool) (f : Nat → Bool) (t : Nat),
      sys_rst (crgTrace init f (t + 1)) = !(f t)) :=
  ⟨rfl, rfl, rfl, fun _ => rfl, fun _ _ => rfl, fun _ _ _ => rfl,
   fun _ _ _ => rfl⟩

/-- The sequence `layout` produces is nondecreasing in base address. -/
theorem layout_sorted_pairwise (st : List MemoryRegion) :
    ((layout st).map (fun t => t.2.1)).Pairwise (· ≤ ·) := by
  have hs : List.Sorted regionLe (st.insertionSort regionLe) :=
    List.sorted_insertionSort regionLe st
  rw [layout, List.map_map, List.pairwise_map]
  exact hs.imp (fun h => h)

/-- A registry sorted by base with pairwise-distinct bases is strictly
sorted. -/
theorem sorted_regionLt_of_nodup {l : List MemoryRegion}
    (hs : List.Pairwise regionLe l)
    (hn : (l.map MemoryRegion.base).Nodup) :
    List.Pairwise regionLt l := by
  have hn' : l.Pairwise (fun a b => a.base ≠ b.base) :=
    List.pairwise_map.mp hn
  exact (hs.and hn').imp (fun h => Nat.lt_of_le_of_ne h.1 h.2)

/-- Claim C4 (amended): `layout()` is sorted in ascending base order, and for
registries with pairwise-distinct base addresses (guaranteed whenever all
registered regions have positive size, as `register` then forbids equal
bases) the output sequence is independent of insertion order. -/
theorem layout_sorted_insertion_independent :
    (∀ st : List MemoryRegion,
      ((layout st).map (fun t => t.2.1)).Pairwise (· ≤ ·)) ∧
    (∀ st1 st2 : List MemoryRegion, List.Perm st1 st2 →
      (st1.map MemoryRegion.base).Nodup → layout st1 = layout st2) := by
  refine ⟨layout_sorted_pairwise, ?_⟩
  intro st1 st2 hp hn
  have h1 : List.Perm (st1.insertionSort regionLe)
      (st2.insertionSort regionLe) :=
    ((List.perm_insertionSort regionLe st1).trans hp).trans
      (List.perm_insertionSort regionLe st2).symm
  have hn1 : ((st1.insertionSort regionLe).map MemoryRegion.base).Nodup :=
    (((List.perm_insertionSort regionLe st1).map MemoryRegion.base).nodup_iff).mpr hn
  have hn2 : ((st2.insertionSort regionLe).map MemoryRegion.base).Nodup :=
    (((List.perm_insertionSort regionLe st2).map MemoryRegion.base).nodup_iff).mpr
      (((hp.map MemoryRegion.base).nodup_iff).mp hn)
  have hs1 : List.Pairwise regionLt (st1.insertionSort regionLe) :=
    sorted_regionLt_of_nodup (List.sorted_insertionSort regionLe st1) hn1
  have hs2 : List.Pairwise regionLt (st2.insertionSort regionLe) :=
    sorted_regionLt_of_nodup (List.sorted_insertionSort regionLe st2) hn2
  have heq : st1.insertionSort regionLe = st2.insertionSort regionLe :=
    List.eq_of_perm_of_sorted h1 hs1 hs2
  rw [layout, layout, heq]

/-- Witness for C4: the two insertion orders of the core and hyperram
regions have the same layout, by the theorem applied at those lists. -/
theorem layout_sorted_insertion_independent_witness :
    List.Perm [hyperramRegion, coreRegion] [coreRegion, hyperramRegion] ∧
    ([hyperramRegion, coreRegion].map MemoryRegion.base).Nodup ∧
    layout [hyperramRegion, coreRegion] =
      layout [coreRegion, hyperramRegion] :=
  ⟨List.Perm.swap coreRegion hyperramRegion [], by decide,
   layout_sorted_insertion_independent.2 [hyperramRegion, coreRegion]
     [coreRegion, hyperramRegion]
     (List.Perm.swap coreRegion hyperramRegion []) (by decide)⟩

/-- Counterexample for C4 as stated: two zero-size regions at the same base
both register successfully in either order, yet the two insertion orders
yield different `layout()` sequences, so the output is not independent of
insertion order without a positive-size (distinct-base) proviso. -/
theorem layout_zero_size_order_cex :
    register [] "A" 5 0 RegionKind.memory =
      Except.ok [⟨"A", 5, 0, RegionKind.memory⟩] ∧
    register [⟨"A", 5, 0, RegionKind.memory⟩] "B" 5 0 RegionKind.memory =
      Except.ok [⟨"A", 5, 0, RegionKind.memory⟩,
        ⟨"B", 5, 0, RegionKind.memory⟩] ∧
    register [] "B" 5 0 RegionKind.memory =
      Except.ok [⟨"B", 5, 0, RegionKind.memory⟩] ∧
    register [⟨"B", 5, 0, RegionKind.memory⟩] "A" 5 0 RegionKind.memory =
      Except.ok [⟨"B", 5, 0, RegionKind.memory⟩,
        ⟨"A", 5, 0, RegionKind.memory⟩] ∧
    layout [⟨"A", 5, 0, RegionKind.memory⟩, ⟨"B", 5, 0, RegionKind.memory⟩] ≠
      layout [⟨"B", 5, 0, RegionKind.memory⟩,
        ⟨"A", 5, 0, RegionKind.memory⟩] :=
  ⟨rfl, rfl, rfl, rfl, by decide⟩

/-- Claim C5: extending the frozen base configuration only adds entries —
the base registers core `[0, 0x1000)` then hyperram
`[0x20000000, 0x20800000)`, the extension appends ethmac
`[0xB0000000, 0xB0002000)` leaving the two base regions unchanged in
place, `layout()` of the extended configuration lists all three sorted by
base, and redefining an existing region or domain name fails instead of
silently replacing it. -/
theorem extension_preserves_base :
    baseConfig = Except.ok [coreRegion, hyperramRegion] ∧
    extendedConfig = Except.ok [coreRegion, hyperramRegion, ethmacRegion] ∧
    layout [coreRegion, hyperramRegion, ethmacRegion] =
      [("core", 0x0, 0x1000, RegionKind.memory),
       ("hyperram", 0x20000000, 0x800000, RegionKind.memory),
       ("ethmac", 0xb0000000, 0x2000, RegionKind.io)] ∧
    (∀ (b s : Nat) (k : RegionKind),
      register [coreRegion, hyperramRegion, ethmacRegion] "hyperram" b s k =
        Except.error (ComposerError.DuplicateName "hyperram")) ∧
    (∀ (p : ResetPolicy) (src : Option String),
      define_domain [porDef] "por" p src =
        Except.error ClockError.DuplicateDomain) :=
  ⟨rfl, rfl, rfl, fun _ _ _ => rfl, fun _ _ => rfl⟩

/-- Successful `define_domain` appends the new domain and certifies that
its name was fresh and that, for a non-reset-less policy, its reset source
was an already defined name. -/
theorem define_domain_ok_inv {st st' : List ClockDomainDef} {n : String}
    {p : ResetPolicy} {s : Option String}
    (h : define_domain st n p s = Except.ok st') :
    st' = st ++ [⟨n, p, s⟩] ∧
    (st.any (fun d => d.name == n)) = false ∧
    (p ≠ ResetPolicy.reset_less →
      ∃ src, s = some src ∧ (st.any (fun d => d.name == src)) = true) := by
  unfold define_domain at h
  by_cases h1 : (st.any (fun d => d.name == n)) = true
  · rw [if_pos h1] at h
    cases h
  · rw [Bool.not_eq_true] at h1
    rw [if_neg (by simp [h1])] at h
    by_cases h2 : p = ResetPolicy.reset_less
    · rw [if_pos h2] at h
      injection h with h
      exact ⟨h.symm, h1, fun hp => absurd h2 hp⟩
    · rw [if_neg h2] at h
      cases s with
      | none => cases h
      | some src =>
        dsimp only at h
        by_cases h3 : (st.any (fun d => d.name == src)) = true
        · rw [if_pos h3] at h
          injection h with h
          exact ⟨h.symm, h1, fun _ => ⟨src, rfl, h3⟩⟩
        · rw [if_neg h3] at h
          cases h

/-- A positive name-membership test over the domain list, in terms of the
defined names. -/
theorem any_name_true_iff {st : List ClockDomainDef} {n : String} :
    (st.any (fun d => d.name == n)) = true ↔
      n ∈ st.map (fun d => d.name) := by
  rw [List.any_eq_true, List.mem_map]
  constructor
  · rintro ⟨x, hx, hb⟩
    exact ⟨x, hx, by simpa using hb⟩
  · rintro ⟨x, hx, hb⟩
    exact ⟨x, hx, by simpa using hb⟩

/-- A negative name-membership test over the domain list, in terms of the
defined names. -/
theorem any_name_false_iff {st : List ClockDomainDef} {n : String} :
    (st.any (fun d => d.name == n)) = false ↔
      n ∉ st.map (fun d => d.name) := by
  rw [← Bool.not_eq_true]
  exact not_congr any_name_true_iff

/-- Appending a domain whose name is fresh and whose reset source (for a
non-reset-less policy) is already defined preserves the well-formed-chain
invariant. -/
theorem wfChain_append {st : List ClockDomainDef} {acc : List String}
    (hw : wfChain st acc) {d : ClockDomainDef}
    (hn : d.name ∉ acc ++ st.map (fun x => x.name))
    (hs : d.policy ≠ ResetPolicy.reset_less →
      ∃ s, d.resetSource = some s ∧ s ∈ acc ++ st.map (fun x => x.name)) :
    wfChain (st ++ [d]) acc := by
  induction st generalizing acc with
  | nil =>
    refine ⟨by simpa using hn, ?_, trivial⟩
    intro hp
    rcases hs hp with ⟨s, hs1, hs2⟩
    exact ⟨s, hs1, by simpa using hs2⟩
  | cons x rest ih =>
    rcases hw with ⟨h1, h2, h3⟩
    refine ⟨h1, h2, ih h3 ?_ ?_⟩
    · rw [List.append_assoc]
      exact hn
    · intro hp
      rcases hs hp with ⟨s, hs1, hs2⟩
      refine ⟨s, hs1, ?_⟩
      rw [List.append_assoc]
      exact hs2

/-- Every clock-graph state reachable through `define_domain` satisfies the
well-formed-chain invariant. -/
theorem reachable_wfChain {st : List ClockDomainDef}
    (h : DomainReachable st) : wfChain st [] := by
  induction h with
  | empty => trivial
  | step hr hok ih =>
    rcases define_domain_ok_inv hok with ⟨rfl, hfresh, hsrc⟩
    apply wfChain_append ih
    · simpa using any_name_false_iff.mp hfresh
    · intro hp
      rcases hsrc hp with ⟨src, hs1, hs2⟩
      exact ⟨src, hs1, by simpa using any_name_true_iff.mp hs2⟩

/-- In a well-formed chain no domain names itself as its reset source. -/
theorem wfChain_no_self {st : List ClockDomainDef} {acc : List String}
    (hw : wfChain st acc) :
    ∀ d ∈ st, d.policy ≠ ResetPolicy.reset_less →
      d.resetSource ≠ some d.name := by
  induction st generalizing acc with
  | nil =>
    intro d hd
    cases hd
  | cons x rest ih =>
    rcases hw with ⟨h1, h2, h3⟩
    intro d hd hp
    rcases List.mem_cons.mp hd with rfl | h
    · rcases h2 hp with ⟨s, hs1, hs2⟩
      rw [hs1]
      intro hcontra
      injection hcontra with he
      exact h1 (he ▸ hs2)
    · exact ih h3 d h hp

/-- Claim C6: `define_domain` fails with `DuplicateDomain` on a reused
name; for a non-reset-less policy it fails with `InvalidResetSource` when
the reset source is unset or names a not-yet-defined domain; consequently
every reachable clock graph is a well-formed chain (each reset source is a
strictly earlier domain, so no reset cycle can be constructed) and no
domain is its own reset source. -/
theorem define_domain_errors_and_acyclic :
    (∀ (st : List ClockDomainDef) (n : String) (p : ResetPolicy)
        (s : Option String),
      (st.any (fun d => d.name == n)) = true →
      define_domain st n p s = Except.error ClockError.DuplicateDomain) ∧
    (∀ (st : List ClockDomainDef) (n : String) (p : ResetPolicy),
      (st.any (fun d => d.name == n)) = false →
      p ≠ ResetPolicy.reset_less →
      define_domain st n p none =
        Except.error ClockError.InvalidResetSource) ∧
    (∀ (st : List ClockDomainDef) (n : String) (p : ResetPolicy)
        (src : String),
      (st.any (fun d => d.name == n)) = false →
      p ≠ ResetPolicy.reset_less →
      (st.any (fun d => d.name == src)) = false →
      define_domain st n p (some src) =
        Except.error ClockError.InvalidResetSource) ∧
    (∀ st : List ClockDomainDef, DomainReachable st → wfChain st []) ∧
    (∀ st : List ClockDomainDef, DomainReachable st →
      ∀ d ∈ st, d.policy ≠ ResetPolicy.reset_less →
        d.resetSource ≠ some d.name) := by
  refine ⟨?_, ?_, ?_, fun st h => reachable_wfChain h,
         fun st h => wfChain_no_self (reachable_wfChain h)⟩
  · intro st n p s h
    unfold define_domain
    rw [if_pos h]
  · intro st n p h1 h2
    unfold define_domain
    rw [if_neg (by simp [h1]), if_neg h2]
  · intro st n p src h1 h2 h3
    unfold define_domain
    rw [if_neg (by simp [h1]), if_neg h2]
    dsimp only
    rw [if_neg (by simp [h3])]

/-- Witness for C6: on the concrete por/sys graph, redefining `sys` fails
with `DuplicateDomain`, a self-sourced fresh domain fails with
`InvalidResetSource`, the reachable two-domain graph is a well-formed
chain, and its `sys` domain does not reset-source itself. -/
theorem define_domain_errors_and_acyclic_witness :
    define_domain [porDef, sysDef] "sys" ResetPolicy.asynchronous
        (some "por") = Except.error ClockError.DuplicateDomain ∧
    define_domain [porDef] "mac" ResetPolicy.synchronous (some "mac") =
      Except.error ClockError.InvalidResetSource ∧
    wfChain [porDef, sysDef] [] ∧
    sysDef.resetSource ≠ some sysDef.name := by
  have hreach : DomainReachable [porDef, sysDef] :=
    @DomainReachable.step [porDef] [porDef, sysDef] "sys"
      ResetPolicy.synchronous (some "por")
      (@DomainReachable.step [] [porDef] "por" ResetPolicy.reset_less none
        DomainReachable.empty rfl)
      rfl
  refine ⟨define_domain_errors_and_acyclic.1 _ _ _ _ (by decide),
          define_domain_errors_and_acyclic.2.2.1 _ _ _ _ (by decide)
            (by decide) (by decide),
          define_domain_errors_and_acyclic.2.2.2.1 _ hreach,
          define_domain_errors_and_acyclic.2.2.2.2 _ hreach sysDef
            (by decide) (by decide)⟩

/-- Claim C7: constructing `BaseSoC` succeeds exactly when `sys_clk_freq`
is the default 50 MHz; every other value fails immediately through the
assertion, before any clock domain or memory region is configured (the
error branch carries no configuration), while the success branch holds the
hyperram region. -/
theorem baseSoC_init_freq_guard :
    (∀ f : Nat, (baseSoC_init f).isOk = true ↔ f = 50000000) ∧
    (∀ f : Nat, f ≠ 50000000 →
      baseSoC_init f = Except.error "assert sys_clk_freq == int(50e6)") ∧
    baseSoC_init 50000000 = Except.ok [hyperramRegion] := by
  refine ⟨?_, ?_, rfl⟩
  · intro f
    by_cases h : f = 50000000 <;>
      simp [baseSoC_init, h, Except.isOk, Except.toBool]
  · intro f h
    simp [baseSoC_init, h]

/-- Witness for C7: the default frequency succeeds and 12 MHz fails with
the assertion, by the theorem at those inputs. -/
theorem baseSoC_init_freq_guard_witness :
    (baseSoC_init 50000000).isOk = true ∧
    baseSoC_init 12000000 =
      Except.error "assert sys_clk_freq == int(50e6)" :=
  ⟨(baseSoC_init_freq_guard.1 50000000).mpr rfl,
   baseSoC_init_freq_guard.2.1 12000000 (by decide)⟩

/-- Claim C8: `build_test` returns the number of SoCs whose build left no
`./build/gateware/top.v` file, and returns 0 exactly when every SoC in the
list produced the synthesizable output file. -/
theorem build_test_counts_missing_outputs :
    (∀ socs : List Bool,
      build_test socs = (socs.filter (fun b => !b)).length) ∧
    (∀ socs : List Bool, build_test socs = 0 ↔ ∀ b ∈ socs, b = true) := by
  have key : ∀ (socs : List Bool) (n : Nat),
      socs.foldl (fun errors produced =>
        errors + (if produced then 0 else 1)) n =
        n + (socs.filter (fun b => !b)).length := by
    intro socs
    induction socs with
    | nil => intro n; simp
    | cons x rest ih =>
      intro n
      cases x <;> simp [List.filter, ih] <;> omega
  constructor
  · intro socs
    have h := key socs 0
    simpa [build_test] using h
  · intro socs
    rw [build_test, key socs 0]
    simp [List.length_eq_zero, List.filter_eq_nil_iff]

/-- Witness for C8: a list with one failed build counts one error, and an
all-successful list counts zero, by the theorem at those lists. -/
theorem build_test_counts_missing_outputs_witness :
    build_test [true, false, true] = 1 ∧ build_test [true, true] = 0 :=
  ⟨(build_test_counts_missing_outputs.1 [true, false, true]).trans rfl,
   (build_test_counts_missing_outputs.2 [true, true]).mpr (by decide)⟩

end LitexBoards
